import Mathlib

/-!
Verification of src/knaps_helper.py (KnapsackTree benchmarking harness).

The parser and the two exporters are shallowly embedded below.  Python
strings are modelled as Lean `String`; the single-character variants of
`str.split` are embedded as an explicit character-level splitter with the
same semantics (empty segments preserved, `"".split(c) == [""]`), and
`str.replace(old, "")` for the one- and two-character patterns used by the
code is embedded as the corresponding character-list transformation.
-/

/-- Embedding of the Python single-character `str.split` on a character
list: segments between occurrences of `c`, empty segments preserved;
splitting the empty list gives one empty segment, as in Python. -/
def splitChar (c : Char) : List Char → List (List Char)
  | [] => [[]]
  | x :: xs =>
    if x = c then [] :: splitChar c xs
    else
      match splitChar c xs with
      | [] => [[x]]
      | y :: ys => (x :: y) :: ys

/-- Python `s.split(c)` for a one-character separator `c`, on `String`. -/
def pySplit (c : Char) (s : String) : List String :=
  (splitChar c s.data).map (fun l => ⟨l⟩)

/-- `data.split("\n")` from parse_data (src/knaps_helper.py line 22). -/
def splitLines (data : String) : List String :=
  pySplit (Char.ofNat 10) data

/-- `line.split("|")[:-1]`: split on the pipe and drop the last segment
(src/knaps_helper.py lines 27 and 32). -/
def splitFields (line : String) : List String :=
  (pySplit (Char.ofNat 124) line).dropLast

/-- `s.replace(" ", "")`: every space character (U+0020) is removed,
interior ones included; all other characters are kept in order
(src/knaps_helper.py lines 27 and 32). -/
def removeSpaces (s : String) : String :=
  ⟨s.data.filter (fun c => c != ' ')⟩

/-- Character-level embedding of Python `s.replace("I:", "")`: scan left to
right, deleting every non-overlapping occurrence of the two characters
I, colon. -/
def replaceIC : List Char → List Char
  | 'I' :: ':' :: rest => replaceIC rest
  | c :: rest => c :: replaceIC rest
  | [] => []

/-- `i_data[0].replace("I:", "")` (src/knaps_helper.py line 35). -/
def removeIC (s : String) : String :=
  ⟨replaceIC s.data⟩

/-- Substring test on character lists: true iff `pat` occurs contiguously
in the list.  Embeds the Python `in` operator on strings. -/
def hasSubstr (pat : List Char) : List Char → Bool
  | [] => pat.isPrefixOf []
  | c :: rest => pat.isPrefixOf (c :: rest) || hasSubstr pat rest

/-- `"ITER" in line` (src/knaps_helper.py line 24): the header-marker
detection. -/
def hasIter (line : String) : Bool :=
  hasSubstr ['I', 'T', 'E', 'R'] line.data

/-- The loop body of parse_data (src/knaps_helper.py lines 23-36), one
step per line.  `skip` is the mutable flag of the source: initially true,
set to false by the first marker line.  A line containing the marker is
split, spaces removed, and appended as a header row (and `skip` becomes
false); while `skip` holds other lines are discarded; afterwards each line
is split with spaces removed, a line with zero fields is dropped, and
otherwise the row is appended with every occurrence of I-colon removed
from its first field. -/
def parseLoop (skip : Bool) : List String → List (List String)
  | [] => []
  | line :: rest =>
    if hasIter line then
      ((splitFields line).map removeSpaces) :: parseLoop false rest
    else if skip then
      parseLoop skip rest
    else
      match (splitFields line).map removeSpaces with
      | [] => parseLoop skip rest
      | f :: fs => (removeIC f :: fs) :: parseLoop skip rest

/-- parse_data (src/knaps_helper.py lines 18-37): split the raw text into
lines and run the loop with `skip` initially true. -/
def parse_data (data : String) : List (List String) :=
  parseLoop true (splitLines data)

/-- Path written by save_json (src/knaps_helper.py lines 39-46):
`result_folder + "/json/" + filename + ".json"`. -/
def save_json_path (result_folder filename : String) : String :=
  result_folder ++ "/json/" ++ filename ++ ".json"

/-- The JSON document (array of arrays) written by save_json, as a
function of the module-level global `parsed_data` and of the function
argument `data`.  The body of save_json executes
`json.dump(parsed_data, outfile)` (src/knaps_helper.py line 46): it
serialises the global `parsed_data`, and the parameter `data` is never
used. -/
def save_json_doc (parsed_data data : List (List String)) : List (List String) :=
  parsed_data

/-- The cell address used by save_xlsx (src/knaps_helper.py line 58):
`chr(j + 65)` followed by the decimal digits of `i + 1`, for the table
position at row `i`, column `j` (0-based). -/
def cellAddr (i j : Nat) : String :=
  (⟨[Char.ofNat (j + 65)]⟩ : String) ++ toString (i + 1)

/-- The sequence of cell writes performed by save_xlsx
(src/knaps_helper.py lines 56-58): for each row index `i` and column
index `j`, the pair (address, value) with `value = data[i][j]`. -/
def xlsxWrites (data : List (List String)) : List (String × String) :=
  data.enum.flatMap (fun p => p.2.enum.map (fun q => (cellAddr p.1 q.1, q.2)))

/-- Modelled from the spec: the whitespace-trimmed value of a field,
"leading and trailing whitespace removed, interior content unchanged".
Used only to compare the spec wording against the code behaviour. -/
def trimSpec (s : String) : String :=
  ⟨((s.data.dropWhile Char.isWhitespace).reverse.dropWhile Char.isWhitespace).reverse⟩

/-! ### Helper lemmas -/

lemma replaceIC_sublist : ∀ l : List Char, (replaceIC l).Sublist l := by
  intro l
  induction l using replaceIC.induct with
  | case1 rest ih =>
    rw [replaceIC.eq_1]
    exact List.Sublist.cons _ (List.Sublist.cons _ ih)
  | case2 c rest hne ih =>
    rw [replaceIC.eq_2 c rest hne]
    exact List.Sublist.cons₂ _ ih
  | case3 =>
    simp [replaceIC]

lemma space_not_mem_removeSpaces (s : String) : (' ' : Char) ∉ (removeSpaces s).data := by
  simp [removeSpaces]

lemma space_not_mem_removeIC (s : String) :
    (' ' : Char) ∉ (removeIC (removeSpaces s)).data :=
  fun h => space_not_mem_removeSpaces s ((replaceIC_sublist _).subset h)

lemma parseLoop_no_space :
    ∀ (lines : List String) (skip : Bool) (row : List String),
      row ∈ parseLoop skip lines → ∀ f ∈ row, (' ' : Char) ∉ f.data := by
  intro lines
  induction lines with
  | nil =>
    intro skip row h
    simp [parseLoop] at h
  | cons line rest ih =>
    intro skip row hrow f hf
    simp only [parseLoop] at hrow
    split at hrow
    · rcases List.mem_cons.mp hrow with rfl | h2
      · rcases List.mem_map.mp hf with ⟨x, _, rfl⟩
        exact space_not_mem_removeSpaces x
      · exact ih false row h2 f hf
    · split at hrow
      · exact ih skip row hrow f hf
      · split at hrow
        · exact ih skip row hrow f hf
        · next g gs heq =>
          rcases List.mem_cons.mp hrow with rfl | h2
          · rcases List.mem_cons.mp hf with rfl | hgs
            · have hg : g ∈ (splitFields line).map removeSpaces := by
                rw [heq]; exact List.mem_cons_self _ _
              rcases List.mem_map.mp hg with ⟨x, _, rfl⟩
              exact space_not_mem_removeIC x
            · have hfm : f ∈ (splitFields line).map removeSpaces := by
                rw [heq]; exact List.mem_cons_of_mem _ hgs
              rcases List.mem_map.mp hfm with ⟨x, _, rfl⟩
              exact space_not_mem_removeSpaces x
          · exact ih skip row h2 f hf

lemma parseLoop_true_of_no_marker :
    ∀ (lines : List String), (∀ l ∈ lines, hasIter l = false) →
      parseLoop true lines = [] := by
  intro lines
  induction lines with
  | nil => intro _; simp [parseLoop]
  | cons line rest ih =>
    intro h
    have h1 := h line (List.mem_cons_self _ _)
    simp only [parseLoop, h1, Bool.false_eq_true, if_false, if_true]
    exact ih (fun l hl => h l (List.mem_cons_of_mem _ hl))

lemma parseLoop_false_shape (k : Nat) (hk : 0 < k) :
    ∀ (rest : List String), (∀ l ∈ rest, (splitFields l).length = k) →
      (parseLoop false rest).length = rest.length ∧
      ∀ row ∈ parseLoop false rest, row.length = k := by
  intro rest
  induction rest with
  | nil => intro _; simp [parseLoop]
  | cons line rest ih =>
    intro h
    have hline := h line (List.mem_cons_self _ _)
    obtain ⟨ih1, ih2⟩ := ih (fun l hl => h l (List.mem_cons_of_mem _ hl))
    by_cases hI : hasIter line = true
    · constructor
      · simp [parseLoop, hI, ih1]
      · intro row hrow
        simp only [parseLoop, hI, if_true] at hrow
        rcases List.mem_cons.mp hrow with rfl | h2
        · simp [hline]
        · exact ih2 row h2
    · have hI2 : hasIter line = false := by simpa using hI
      cases hm : (splitFields line).map removeSpaces with
      | nil =>
        exfalso
        have h0 : (splitFields line).length = 0 := by
          have := congrArg List.length hm
          simpa using this
        omega
      | cons g gs =>
        have hlen : gs.length + 1 = k := by
          have := congrArg List.length hm
          simp at this
          omega
        constructor
        · simp [parseLoop, hI2, hm, ih1]
        · intro row hrow
          simp only [parseLoop, hI2, Bool.false_eq_true, if_false, hm] at hrow
          rcases List.mem_cons.mp hrow with rfl | h2
          · simpa using hlen
          · exact ih2 row h2

lemma mem_enumFrom_get {α : Type} :
    ∀ (l : List α) (n i : Nat) (h : i < l.length), (n + i, l[i]) ∈ l.enumFrom n := by
  intro l
  induction l with
  | nil => intro n i h; simp at h
  | cons a l ih =>
    intro n i h
    cases i with
    | zero => simp [List.enumFrom]
    | succ i =>
      have hi : i < l.length := by simpa [Nat.succ_lt_succ_iff] using h
      have := ih (n + 1) i hi
      refine List.mem_cons_of_mem _ ?_
      rw [show n + (i + 1) = (n + 1) + i by omega]
      simpa using this

lemma mem_enum_get {α : Type} (l : List α) (i : Nat) (h : i < l.length) :
    (i, l[i]) ∈ l.enum := by
  have := mem_enumFrom_get l 0 i h
  simpa [List.enum] using this

example : splitFields "X | ITER | VAL |" = ["X ", " ITER ", " VAL "] := by decide
example : parse_data "X | ITER | VAL |\nI:0 | 1 | 10 |\nI:1 | 2 | 20 |\n" =
    [["X", "ITER", "VAL"], ["0", "1", "10"], ["1", "2", "20"]] := by decide
example : parse_data "hello" = [] := by decide
example : parse_data "ITER|\nXI:Y|1|" = [["ITER"], ["XY", "1"]] := by decide
example : cellAddr 2 1 = "B3" := by decide

/-! ### Claims -/

/-- C1: save_json is claimed to write the table passed as its argument.
The code instead serialises the module-level global parsed_data; the
parameter data of save_json is never used (src/knaps_helper.py line 46),
so when the argument differs from the global, the written document is not
the argument.  Evaluated at global [["a"]] and argument [["b"]]. -/
theorem save_json_ignores_argument :
    save_json_doc [["a"]] [["b"]] = [["a"]] ∧
    save_json_doc [["a"]] [["b"]] ≠ [["b"]] ∧
    save_json_path "r" "f" = "r/json/f.json" := by
  refine ⟨rfl, by decide, by decide⟩

/-- C2 counterexample: on the spec example input, the parsed rows are not
[["ITER","VAL"], ["0","1","10"], ["1","2","20"]]: the header row keeps
the "X" field of the marker-containing line. -/
theorem parse_data_example_header_cex :
    parse_data "X | ITER | VAL |\nI:0 | 1 | 10 |\nI:1 | 2 | 20 |\n" ≠
      [["ITER", "VAL"], ["0", "1", "10"], ["1", "2", "20"]] := by
  decide

/-- C2 amended: the example input parses to
[["X","ITER","VAL"], ["0","1","10"], ["1","2","20"]]; the header row
equals all fields of the marker-containing line (split on the pipe with
the trailing segment dropped, spaces removed), including the leading
"X". -/
theorem parse_data_example_rows :
    parse_data "X | ITER | VAL |\nI:0 | 1 | 10 |\nI:1 | 2 | 20 |\n" =
      [["X", "ITER", "VAL"], ["0", "1", "10"], ["1", "2", "20"]] ∧
    (parse_data "X | ITER | VAL |\nI:0 | 1 | 10 |\nI:1 | 2 | 20 |\n").head? =
      some ((splitFields "X | ITER | VAL |").map removeSpaces) := by
  refine ⟨by decide, by decide⟩

/-- C3 counterexample: for the input "hello", no line of which contains
the marker, parse_data returns the empty sequence, not the one-element
sequence holding an empty header list. -/
theorem parse_data_no_marker_cex :
    splitLines "hello" = ["hello"] ∧
    hasIter "hello" = false ∧
    parse_data "hello" = [] ∧
    ([] : List (List String)) ≠ [[]] := by
  decide

/-- C3 amended: if no line of the input contains the marker token "ITER",
parse_data returns the empty sequence (zero rows), since the header list
is only appended inside the marker branch. -/
theorem parse_data_no_marker_empty (data : String)
    (h : ∀ l ∈ splitLines data, hasIter l = false) : parse_data data = [] :=
  parseLoop_true_of_no_marker (splitLines data) h

/-- C3 witness. -/
theorem parse_data_no_marker_empty_w : parse_data "hello" = [] :=
  parse_data_no_marker_empty "hello" (by decide)

/-- C4 counterexample: the data field " a b " (leading, trailing and
interior spaces) parses to "ab", while its whitespace-trimmed value is
"a b": the parser removes interior spaces too. -/
theorem parse_data_trim_cex :
    parse_data "ITER|\nI:0| a b |" = [["ITER"], ["0", "ab"]] ∧
    trimSpec " a b " = "a b" ∧
    ("ab" : String) ≠ "a b" := by
  refine ⟨by decide, by decide, by decide⟩

/-- C4 amended: each retained data field equals the raw field with every
space character (U+0020) removed, interior spaces included, rather than
the whitespace-trimmed value; the first field additionally has all I-colon
occurrences removed.  Non-space whitespace such as the tab is kept. -/
theorem parse_data_space_removal :
    (∀ (line f : String) (fs rest : List String), hasIter line = false →
        splitFields line = f :: fs →
        parseLoop false (line :: rest) =
          (removeIC (removeSpaces f) :: fs.map removeSpaces) :: parseLoop false rest)
    ∧ removeSpaces " a b " = "ab"
    ∧ removeSpaces "\ta\t" = "\ta\t" := by
  refine ⟨?_, by decide, by decide⟩
  intro line f fs rest h1 h2
  simp [parseLoop, h1, h2]

/-- C4 witness. -/
theorem parse_data_space_removal_w :
    parseLoop false ["I:2 | a b |"] = [["2", "ab"]] :=
  parse_data_space_removal.1 "I:2 | a b |" "I:2 " [" a b "] [] (by decide) (by decide)

/-- C5 counterexample: for the input "ITER\nA" the header line "ITER" has
zero fields (no pipe), and the single data line "A" has the same zero
field count; the output is the single row [[]], not 1 + 1 rows. -/
theorem parse_data_shape_cex :
    hasIter "ITER" = true ∧
    splitLines "ITER\nA" = ["ITER", "A"] ∧
    (splitFields "A").length = (splitFields "ITER").length ∧
    parse_data "ITER\nA" = [[]] ∧
    (parse_data "ITER\nA").length ≠ 1 + 1 := by
  decide

/-- C5 amended: for input whose lines are a header line containing the
marker with a positive field count k, followed by N data lines of field
count k, the parser output has exactly N + 1 rows, each of field count k.
(The positivity condition is needed: a zero-field data line is skipped.)
Stated over parseLoop applied to the sequence of lines, i.e. parse_data
of the text whose lines these are. -/
theorem parse_data_shape (h : String) (rest : List String) (k : Nat)
    (hh : hasIter h = true) (hk : (splitFields h).length = k) (hpos : 0 < k)
    (hall : ∀ l ∈ rest, (splitFields l).length = k) :
    (parseLoop true (h :: rest)).length = rest.length + 1 ∧
    ∀ row ∈ parseLoop true (h :: rest), row.length = k := by
  obtain ⟨h1, h2⟩ := parseLoop_false_shape k hpos rest hall
  constructor
  · simp [parseLoop, hh, h1]
  · intro row hrow
    simp only [parseLoop, hh, if_true] at hrow
    rcases List.mem_cons.mp hrow with rfl | hr
    · simp [hk]
    · exact h2 row hr

/-- C5 witness. -/
theorem parse_data_shape_w :
    (parseLoop true ["A|ITER|", "I:0|1|"]).length = 1 + 1 :=
  (parse_data_shape "A|ITER|" ["I:0|1|"] 2 (by decide) (by decide) (by decide)
    (by decide)).1

/-- C6 counterexample: the data row whose first raw field is "I:I:5"
parses to first field "5": the code removes every occurrence of I-colon,
whereas stripping only the leading occurrence would give "I:5". -/
theorem parse_data_icolon_cex :
    parse_data "ITER|\nI:I:5|1|" = [["ITER"], ["5", "1"]] ∧
    parse_data "ITER|\nI:I:5|1|" ≠ [["ITER"], ["I:5", "1"]] := by
  refine ⟨by decide, by decide⟩

/-- C6 amended: on each retained data row the parser removes every
occurrence of the two-character sequence I-colon from the first field
(applied after space removal), leaving all other fields untouched; in
particular "I:42" parses to "42", but "I:I:5" gives "5" and "XI:Y" gives
"XY", so it is not a pure leading-prefix strip. -/
theorem parse_data_icolon_first_field :
    (∀ (line g : String) (gs rest : List String), hasIter line = false →
        (splitFields line).map removeSpaces = g :: gs →
        parseLoop false (line :: rest) = (removeIC g :: gs) :: parseLoop false rest)
    ∧ removeIC "I:42" = "42"
    ∧ removeIC "I:I:5" = "5"
    ∧ removeIC "XI:Y" = "XY" := by
  refine ⟨?_, by decide, by decide, by decide⟩
  intro line g gs rest h1 h2
  simp [parseLoop, h1, h2]

/-- C6 witness. -/
theorem parse_data_icolon_first_field_w :
    parseLoop false ["I:42|7|"] = [["42", "7"]] :=
  parse_data_icolon_first_field.1 "I:42|7|" "I:42" ["7"] [] (by decide) (by decide)

/-- C7: save_xlsx writes table entry (i, j) (0-based, j < 26) to the cell
addressed by the j-th alphabetic letter starting at the letter A followed
by the 1-based row number i + 1; in particular position (0,0) lands at
cell "A1" and (2,1) at "B3". -/
theorem save_xlsx_cell_addressing (data : List (List String)) (i j : Nat)
    (hi : i < data.length) (hj : j < data[i].length) (h26 : j < 26) :
    (cellAddr i j, data[i][j]) ∈ xlsxWrites data ∧
    cellAddr 0 0 = "A1" ∧ cellAddr 2 1 = "B3" ∧
    cellAddr i j = (⟨[Char.ofNat ('A'.toNat + j)]⟩ : String) ++ toString (i + 1) := by
  refine ⟨?_, by decide, by decide, ?_⟩
  · unfold xlsxWrites
    refine List.mem_flatMap.mpr ⟨(i, data[i]), mem_enum_get data i hi, ?_⟩
    exact List.mem_map.mpr ⟨(j, data[i][j]), mem_enum_get data[i] j hj, rfl⟩
  · unfold cellAddr
    rw [Nat.add_comm j 65]
    rfl

/-- C7 witness. -/
theorem save_xlsx_cell_addressing_w :
    ("B3", "v") ∈ xlsxWrites [["a", "b"], ["c"], ["u", "v"]] :=
  (save_xlsx_cell_addressing [["a", "b"], ["c"], ["u", "v"]] 2 1 (by decide)
    (by decide) (by decide)).1

/-- C8: a line after the header that yields zero fields when split on the
pipe with the trailing segment dropped (such as a blank line) is skipped,
and (as long as no marker line itself has zero fields) no empty row ever
appears in the parser output. -/
theorem parse_data_blank_lines_skipped :
    (∀ (skip : Bool) (line : String) (rest : List String),
        hasIter line = false → splitFields line = [] →
        parseLoop skip (line :: rest) = parseLoop skip rest)
    ∧ (∀ (lines : List String),
        (∀ l ∈ lines, hasIter l = true → splitFields l ≠ []) →
        ∀ (skip : Bool) (row : List String), row ∈ parseLoop skip lines → row ≠ []) := by
  constructor
  · intro skip line rest h1 h2
    simp [parseLoop, h1, h2]
  · intro lines
    induction lines with
    | nil =>
      intro _ skip row hrow
      simp [parseLoop] at hrow
    | cons line rest ih =>
      intro h skip row hrow
      have hrest := fun l hl => h l (List.mem_cons_of_mem _ hl)
      simp only [parseLoop] at hrow
      split at hrow
      · next hI =>
        rcases List.mem_cons.mp hrow with rfl | h2
        · have := h line (List.mem_cons_self _ _) hI
          simpa using this
        · exact ih hrest false row h2
      · split at hrow
        · exact ih hrest skip row hrow
        · split at hrow
          · exact ih hrest skip row hrow
          · rcases List.mem_cons.mp hrow with rfl | h2
            · simp
            · exact ih hrest skip row h2

/-- C8 witness. -/
theorem parse_data_blank_lines_skipped_w :
    parseLoop false ["", "I:1|2|"] = parseLoop false ["I:1|2|"] :=
  parse_data_blank_lines_skipped.1 false "" ["I:1|2|"] (by decide) (by decide)

/-- C9: every line containing the marker token "ITER" is treated as a
header line, wherever it occurs and whatever the skip state: it is split
on the pipe with the trailing segment dropped, spaces removed, appended
as a row without I-colon removal, and the remaining lines are processed
with skip off; the line is not processed as a data row. -/
theorem parse_data_marker_lines_are_headers (skip : Bool) (line : String)
    (rest : List String) (h : hasIter line = true) :
    parseLoop skip (line :: rest) =
      ((splitFields line).map removeSpaces) :: parseLoop false rest := by
  simp [parseLoop, h]

/-- C9 witness. -/
theorem parse_data_marker_lines_are_headers_w :
    parseLoop true ["ITER|", "B|"] = ["ITER"] :: parseLoop false ["B|"] :=
  parse_data_marker_lines_are_headers true "ITER|" ["B|"] (by decide)

/-- C10: no field of any row returned by parse_data contains a space
character (U+0020): every header and data field has all spaces removed,
interior ones included, while other whitespace such as the tab survives
(second conjunct: a field with tabs and no spaces is kept verbatim). -/
theorem parse_data_fields_no_space :
    (∀ (data : String) (row : List String), row ∈ parse_data data →
        ∀ f ∈ row, (' ' : Char) ∉ f.data)
    ∧ parse_data "ITER|\n\ta\t|x|" = [["ITER"], ["\ta\t", "x"]] := by
  constructor
  · intro data row hrow f hf
    exact parseLoop_no_space (splitLines data) true row hrow f hf
  · decide

/-- C10 witness. -/
theorem parse_data_fields_no_space_w : (' ' : Char) ∉ ("ITER" : String).data :=
  parse_data_fields_no_space.1 "ITER|" ["ITER"] (by decide) "ITER" (by decide)
